import Mathlib

/-!
Shallow embedding of `guidata/configtools.py` and proofs of its
specification claims.

The module keeps two process-wide mutable structures, the image search
path `IMG_PATH` (a list of directories) and the icon cache `ICON_CACHE`
(a dict from image name to icon object).  We embed them by explicit
state passing: functions that read or extend them take the current value
as an argument and return the new one.  The filesystem and the GUI
toolkit are modelled by small structures of total functions.
-/

namespace Guidata

/-- Filesystem interface used by the module: `osp.isfile`, `osp.isdir`,
`os.listdir` and `osp.abspath`. -/
structure FS where
  isfile : String → Bool
  isdir : String → Bool
  listdir : String → List String
  abspath : String → String

/-- Embedding of `osp.join` for the relative-second-argument case used
throughout the module. -/
def osp_join (a b : String) : String := a ++ "/" ++ b

/-- Python exceptions raised by the module: a bare `RuntimeError()` and a
`RuntimeError(msg)` carrying a message. -/
inductive PyError where
  | runtimeEmpty : PyError
  | runtime : String → PyError
deriving DecidableEq

/-- Message of `RuntimeError("Image file %r not found" % name)`. -/
def not_found_msg (name : String) : String :=
  "Image file '" ++ name ++ "' not found"

/-- The `for pth in IMG_PATH` loop of `get_image_file_path`: return
`osp.abspath(osp.join(pth, name))` for the first directory `pth` whose
join with `name` is a file. -/
def find_image (fs : FS) (name : String) : List String → Option String
  | [] => none
  | pth :: rest =>
    let full_path := osp_join pth name
    if fs.isfile full_path then some (fs.abspath full_path)
    else find_image fs name rest

/-- Embedding of `get_image_file_path(name, default="not_found.png")`.
The Python function scans `IMG_PATH`; on failure, when `default` is not
`None` it calls itself once with `(default, None)`, turning the inner
bare `RuntimeError()` into `RuntimeError("Image file %r not found" % name)`;
when `default` is `None` it raises a bare `RuntimeError()`. -/
def get_image_file_path (fs : FS) (img_path : List String) (name : String)
    (dflt : Option String) : Except PyError String :=
  match dflt with
  | some d =>
    match find_image fs name img_path with
    | some p => Except.ok p
    | none =>
      (get_image_file_path fs img_path d none).mapError
        (fun _ => PyError.runtime (not_found_msg name))
  | none =>
    match find_image fs name img_path with
    | some p => Except.ok p
    | none => Except.error PyError.runtimeEmpty
termination_by (if dflt.isSome then 1 else 0)
decreasing_by simp

/-- Number of recursive self-invocations performed by
`get_image_file_path` (0 when the first scan succeeds or no fallback is
given, 1 when the fallback retry happens). -/
def gifp_calls (fs : FS) (img_path : List String) (name : String)
    (dflt : Option String) : Nat :=
  match dflt with
  | some d =>
    match find_image fs name img_path with
    | some _ => 0
    | none => gifp_calls fs img_path d none + 1
  | none => 0
termination_by (if dflt.isSome then 1 else 0)
decreasing_by simp

lemma find_image_eq_none (fs : FS) (name : String) (l : List String)
    (h : ∀ p ∈ l, fs.isfile (osp_join p name) = false) :
    find_image fs name l = none := by
  induction l with
  | nil => rfl
  | cons p rest ih =>
    simp only [find_image, h p (List.mem_cons_self p rest)]
    exact ih fun q hq => h q (List.mem_cons_of_mem p hq)

lemma find_image_first_match (fs : FS) (name d : String) (l1 l2 : List String)
    (h1 : ∀ p ∈ l1, fs.isfile (osp_join p name) = false)
    (hd : fs.isfile (osp_join d name) = true) :
    find_image fs name (l1 ++ d :: l2) = some (fs.abspath (osp_join d name)) := by
  induction l1 with
  | nil => simp [find_image, hd]
  | cons p rest ih =>
    simp only [List.cons_append, find_image, h1 p (List.mem_cons_self p rest)]
    exact ih fun q hq => h1 q (List.mem_cons_of_mem p hq)

/-- Claim C1: for every image name and every state of the image path
registry, `get_image_file_path` returns the absolute path formed by
joining the first directory in the registry (in registration order) that
contains a file of that name; directories after the first match (the
arbitrary suffix `l2`) are never consulted — the result does not depend
on them. -/
theorem get_image_file_path_first_match (fs : FS) (l1 l2 : List String)
    (d name : String) (dflt : Option String)
    (h1 : ∀ p ∈ l1, fs.isfile (osp_join p name) = false)
    (hd : fs.isfile (osp_join d name) = true) :
    get_image_file_path fs (l1 ++ d :: l2) name dflt =
      Except.ok (fs.abspath (osp_join d name)) := by
  have hf := find_image_first_match fs name d l1 l2 h1 hd
  cases dflt with
  | none => unfold get_image_file_path; rw [hf]
  | some fb => unfold get_image_file_path; rw [hf]

/-- Witness for C1 at a concrete filesystem and registry. -/
theorem get_image_file_path_first_match_witness :
    get_image_file_path
      { isfile := fun _ => true, isdir := fun _ => false,
        listdir := fun _ => [], abspath := fun s => s }
      ([] ++ "imgs" :: ["other"]) "x.png" (some "not_found.png") =
      Except.ok "imgs/x.png" :=
  get_image_file_path_first_match
    { isfile := fun _ => true, isdir := fun _ => false,
      listdir := fun _ => [], abspath := fun s => s }
    [] ["other"] "imgs" "x.png" (some "not_found.png")
    (by intro p hp; cases hp) rfl

lemma gifp_none_dflt (fs : FS) (l : List String) (name : String)
    (h : find_image fs name l = none) :
    get_image_file_path fs l name none = Except.error PyError.runtimeEmpty := by
  unfold get_image_file_path
  rw [h]

lemma gifp_fallback_fails (fs : FS) (l : List String) (name fb : String)
    (h : find_image fs name l = none) (hfb : find_image fs fb l = none) :
    get_image_file_path fs l name (some fb) =
      Except.error (PyError.runtime (not_found_msg name)) := by
  unfold get_image_file_path
  rw [h, gifp_none_dflt fs l fb hfb]
  rfl

lemma gifp_fallback_found (fs : FS) (l : List String) (name fb p : String)
    (h : find_image fs name l = none) (hfb : find_image fs fb l = some p) :
    get_image_file_path fs l name (some fb) = Except.ok p := by
  unfold get_image_file_path
  rw [h]
  unfold get_image_file_path
  rw [hfb]
  rfl

/-- Claim C2: for every image name absent from every registered
directory: with a non-`None` default, `get_image_file_path` retries the
scan exactly once with the fallback name — returning the fallback's
resolved path when that scan succeeds, and raising a `RuntimeError`
naming the original image when it fails; with a `None` default it raises
a bare `RuntimeError` immediately, with no retry. -/
theorem get_image_file_path_fallback_retry (fs : FS) (l : List String)
    (name : String)
    (h : ∀ p ∈ l, fs.isfile (osp_join p name) = false) :
    (∀ fb, (∀ p ∈ l, fs.isfile (osp_join p fb) = false) →
      get_image_file_path fs l name (some fb) =
        Except.error (PyError.runtime (not_found_msg name))) ∧
    (∀ l1 d l2 fb, l = l1 ++ d :: l2 →
      (∀ p ∈ l1, fs.isfile (osp_join p fb) = false) →
      fs.isfile (osp_join d fb) = true →
      get_image_file_path fs l name (some fb) =
        Except.ok (fs.abspath (osp_join d fb))) ∧
    get_image_file_path fs l name none = Except.error PyError.runtimeEmpty := by
  have hn := find_image_eq_none fs name l h
  refine ⟨fun fb hfb => ?_, fun l1 d l2 fb hl hfb1 hfbd => ?_, gifp_none_dflt fs l name hn⟩
  · exact gifp_fallback_fails fs l name fb hn (find_image_eq_none fs fb l hfb)
  · subst hl
    exact gifp_fallback_found fs _ name fb _ hn
      (find_image_first_match fs fb d l1 l2 hfb1 hfbd)

/-- Witness for C2: empty registry, so no name resolves; the fallback
branch raises the error naming the original image. -/
theorem get_image_file_path_fallback_retry_witness :
    get_image_file_path
      { isfile := fun _ => false, isdir := fun _ => false,
        listdir := fun _ => [], abspath := fun s => s }
      [] "x.png" (some "not_found.png") =
      Except.error (PyError.runtime (not_found_msg "x.png")) :=
  (get_image_file_path_fallback_retry
    { isfile := fun _ => false, isdir := fun _ => false,
      listdir := fun _ => [], abspath := fun s => s }
    [] "x.png" (fun p hp => absurd hp (List.not_mem_nil p))).1
    "not_found.png" (fun p hp => absurd hp (List.not_mem_nil p))

lemma gifp_calls_none (fs : FS) (l : List String) (n : String) :
    gifp_calls fs l n none = 0 := by
  unfold gifp_calls
  rfl

lemma gifp_calls_le_one (fs : FS) (l : List String) (n : String)
    (d : Option String) : gifp_calls fs l n d ≤ 1 := by
  cases d with
  | none => rw [gifp_calls_none]; exact Nat.zero_le 1
  | some fb =>
    unfold gifp_calls
    cases hfind : find_image fs n l with
    | none => simp [gifp_calls_none]
    | some p => simp

/-- Claim C3: for a name equal to the default fallback name and absent
from every registered directory, `get_image_file_path` terminates with a
single `RuntimeError` naming that image; the retry passes `None` as its
own fallback, so exactly one recursive self-invocation happens, and the
number of self-invocations is bounded by one for every input. -/
theorem get_image_file_path_no_infinite_recursion (fs : FS)
    (l : List String) (name : String)
    (h : ∀ p ∈ l, fs.isfile (osp_join p name) = false) :
    get_image_file_path fs l name (some name) =
      Except.error (PyError.runtime (not_found_msg name)) ∧
    gifp_calls fs l name (some name) = 1 ∧
    (∀ (n : String) (d : Option String), gifp_calls fs l n d ≤ 1) := by
  have hn := find_image_eq_none fs name l h
  refine ⟨gifp_fallback_fails fs l name name hn hn, ?_, fun n d => gifp_calls_le_one fs l n d⟩
  unfold gifp_calls
  rw [hn, gifp_calls_none]

/-- Witness for C3: the default name itself, absent from an empty
registry. -/
theorem get_image_file_path_no_infinite_recursion_witness :
    get_image_file_path
      { isfile := fun _ => false, isdir := fun _ => false,
        listdir := fun _ => [], abspath := fun s => s }
      [] "not_found.png" (some "not_found.png") =
      Except.error (PyError.runtime (not_found_msg "not_found.png")) :=
  (get_image_file_path_no_infinite_recursion
    { isfile := fun _ => false, isdir := fun _ => false,
      listdir := fun _ => [], abspath := fun s => s }
    [] "not_found.png" (fun p hp => absurd hp (List.not_mem_nil p))).1

/-- Embedding of `add_image_path(path, subfolders=True)`: append `path`
to the registry, then, when `subfolders` is set, loop over
`os.listdir(path)` appending each entry whose join with `path` is a
directory.  (The `decode_fs_string` branch for non-`str` arguments is
outside the model: paths are strings.) -/
def add_image_path (fs : FS) (img_path : List String) (path : String)
    (subfolders : Bool) : List String :=
  let img_path := img_path ++ [path]
  if subfolders then
    (fs.listdir path).foldl
      (fun acc fileobj =>
        let pth := osp_join path fileobj
        if fs.isdir pth then acc ++ [pth] else acc)
      img_path
  else img_path

lemma foldl_append_if (P : String → Bool) (g : String → String)
    (l : List String) (init : List String) :
    l.foldl (fun acc f => if P (g f) then acc ++ [g f] else acc) init =
      init ++ l.filterMap (fun f => if P (g f) then some (g f) else none) := by
  induction l generalizing init with
  | nil => simp
  | cons f rest ih =>
    cases h : P (g f) with
    | true => simp [h, ih]
    | false => simp [h, ih]

/-- Claim C4: for every directory, `add_image_path` with subfolder
expansion enabled appends to the registry first the path itself and then
every directory-typed entry of the directory listing (joined with the
path), in listing order; the pre-existing registry `img_path` is an
unchanged prefix of the result. -/
theorem add_image_path_subfolders_append (fs : FS) (img_path : List String)
    (path : String) :
    add_image_path fs img_path path true =
      img_path ++ path ::
        ((fs.listdir path).filterMap fun fileobj =>
          if fs.isdir (osp_join path fileobj) then some (osp_join path fileobj)
          else none) := by
  unfold add_image_path
  simp only [if_true]
  rw [foldl_append_if fs.isdir (osp_join path) (fs.listdir path) (img_path ++ [path])]
  simp

/-- A `QIcon` object, identified by the image file path it was
constructed from (`QG.QIcon(get_image_file_path(name, default))`). -/
structure Icon where
  path : String
deriving DecidableEq

/-- Lookup in the icon cache dict (`ICON_CACHE[name]`, raising `KeyError`
modelled as `none`). -/
def dict_get : List (String × Icon) → String → Option Icon
  | [], _ => none
  | (k, v) :: rest, name => if k = name then some v else dict_get rest name

/-- Witness filesystem: every path is a file, nothing is a directory,
listings are empty, `abspath` is the identity. -/
def fsW : FS :=
  { isfile := fun _ => true, isdir := fun _ => false,
    listdir := fun _ => [], abspath := fun s => s }

/-- Embedding of `get_icon(name, default="not_found.png")`: return the
cached icon when `name` is a key of `ICON_CACHE`; otherwise resolve the
image path, build the icon, store it under `name` and return it.  A
resolution failure propagates and stores nothing. -/
def get_icon (fs : FS) (img_path : List String) (cache : List (String × Icon))
    (name : String) (dflt : Option String) :
    Except PyError (Icon × List (String × Icon)) :=
  match dict_get cache name with
  | some icon => Except.ok (icon, cache)
  | none =>
    match get_image_file_path fs img_path name dflt with
    | Except.ok p => Except.ok (⟨p⟩, (name, (⟨p⟩ : Icon)) :: cache)
    | Except.error e => Except.error e

lemma get_icon_stores (fs : FS) (img_path : List String)
    (cache : List (String × Icon)) (name : String) (dflt : Option String)
    (icon : Icon) (cache' : List (String × Icon))
    (h : get_icon fs img_path cache name dflt = Except.ok (icon, cache')) :
    dict_get cache' name = some icon := by
  unfold get_icon at h
  cases hc : dict_get cache name with
  | some i =>
    rw [hc] at h
    injection h with h
    injection h with h1 h2
    rw [← h2, ← h1, hc]
  | none =>
    rw [hc] at h
    cases hg : get_image_file_path fs img_path name dflt with
    | ok p =>
      rw [hg] at h
      injection h with h
      injection h with h1 h2
      rw [← h2]
      simp [dict_get, ← h1]
    | error e => rw [hg] at h; exact absurd h (by simp)

lemma get_icon_preserves (fs : FS) (img_path : List String)
    (cache : List (String × Icon)) (name : String) (dflt : Option String)
    (icon : Icon) (cache' : List (String × Icon))
    (h : get_icon fs img_path cache name dflt = Except.ok (icon, cache'))
    (k : String) (v : Icon) (hk : dict_get cache k = some v) :
    dict_get cache' k = some v := by
  unfold get_icon at h
  cases hc : dict_get cache name with
  | some i =>
    rw [hc] at h
    injection h with h
    injection h with h1 h2
    rw [← h2]
    exact hk
  | none =>
    rw [hc] at h
    cases hg : get_image_file_path fs img_path name dflt with
    | ok p =>
      rw [hg] at h
      injection h with h
      injection h with h1 h2
      rw [← h2]
      have hne : name ≠ k := by
        intro he
        rw [he] at hc
        rw [hc] at hk
        exact absurd hk (by simp)
      simp [dict_get, hne]
      exact hk
    | error e => rw [hg] at h; exact absurd h (by simp)

/-- Claim C5: once a call to `get_icon` has stored an icon in the cache
under `name`, every later call with that name returns the identical
stored object and leaves the cache unchanged; and no `get_icon` call (the
only operation of the module touching `ICON_CACHE`) ever removes or
replaces an existing cache entry. -/
theorem get_icon_cache_identity (fs : FS) (img_path : List String)
    (cache : List (String × Icon)) (name : String) (dflt : Option String)
    (icon : Icon) (cache' : List (String × Icon))
    (h : get_icon fs img_path cache name dflt = Except.ok (icon, cache')) :
    (∀ dflt2, get_icon fs img_path cache' name dflt2 = Except.ok (icon, cache')) ∧
    (∀ c n d i c2, get_icon fs img_path c n d = Except.ok (i, c2) →
      ∀ k v, dict_get c k = some v → dict_get c2 k = some v) := by
  constructor
  · intro dflt2
    unfold get_icon
    rw [get_icon_stores fs img_path cache name dflt icon cache' h]
  · intro c n d i c2 h2 k v hk
    exact get_icon_preserves fs img_path c n d i c2 h2 k v hk

/-- Witness for C5: a first call on the empty cache stores the icon; the
theorem yields that an immediate second call returns it unchanged. -/
theorem get_icon_cache_identity_witness :
    get_icon fsW ["imgs"] [("x.png", (⟨"imgs/x.png"⟩ : Icon))] "x.png" none =
      Except.ok ((⟨"imgs/x.png"⟩ : Icon), [("x.png", (⟨"imgs/x.png"⟩ : Icon))]) :=
  (get_icon_cache_identity fsW ["imgs"] [] "x.png" none ⟨"imgs/x.png"⟩
    [("x.png", ⟨"imgs/x.png"⟩)]
    (by unfold get_icon get_image_file_path; rfl)).1 none

/-- Environment of `get_translation`: the `gettext.translation` catalog
loader (an `IOError` failure modelled as `Except.error ()`, a success as
the catalog's `gettext` function) and `get_module_locale_path`. -/
structure TransEnv where
  translation : String → String → Except Unit (String → String)
  locale_path : String → String

/-- The `dirname = modname if dirname is None` normalisation at the top
of `get_translation`. -/
def effective_dirname (modname : String) : Option String → String
  | none => modname
  | some d => d

/-- The `translate_dumb` fallback of `get_translation`: a `str` argument
is returned unchanged (the non-`str` branch decodes bytes and is outside
the string model). -/
def translate_dumb (x : String) : String := x

/-- Embedding of `get_translation(modname, dirname=None)`: load the
catalog for `modname` from the module locale path; on success wrap its
`gettext` (the `str` branch of `translate_gettext`), on `IOError` return
`translate_dumb`. -/
def get_translation (env : TransEnv) (modname : String)
    (dirname : Option String) : String → String :=
  match env.translation modname
      (env.locale_path (effective_dirname modname dirname)) with
  | Except.ok lgettext => fun x => lgettext x
  | Except.error _ => translate_dumb

/-- Claim C6: when loading the translation catalog fails with `IOError`,
`get_translation` returns (no error escapes: the embedding is total on
this branch) a fallback callback that is the identity on every string
argument. -/
theorem get_translation_fallback_identity (env : TransEnv) (modname : String)
    (dirname : Option String)
    (h : env.translation modname
        (env.locale_path (effective_dirname modname dirname)) =
      Except.error ()) :
    ∀ s, get_translation env modname dirname s = s := by
  intro s
  unfold get_translation
  rw [h]
  rfl

/-- Witness for C6: a loader that always fails leaves the text unchanged. -/
theorem get_translation_fallback_identity_witness :
    get_translation
      { translation := fun _ _ => Except.error (), locale_path := fun s => s }
      "guidata" none "hello" = "hello" :=
  get_translation_fallback_identity
    { translation := fun _ _ => Except.error (), locale_path := fun s => s }
    "guidata" none rfl "hello"

/-- Values stored in the external `UserConfig` key/value store. -/
inductive Val where
  | str : String → Val
  | int : Int → Val
  | rat : Rat → Val
  | bool : Bool → Val
  | list : List String → Val
deriving DecidableEq

/-- Python truthiness of a stored value (`if conf.get(...)`). -/
def Val.truthy : Val → Bool
  | .str s => !(s == "")
  | .int n => !(n == 0)
  | .rat q => !(q == 0)
  | .bool b => b
  | .list l => !l.isEmpty

/-- The external configuration accessor (`UserConfig`), consulted
read-only through `has_option` and `get`. -/
structure Conf where
  store : String → String → Option Val

/-- The accessor `conf.has_option(section, option)`. -/
def Conf.has_option (c : Conf) (sect opt : String) : Bool :=
  (c.store sect opt).isSome

/-- The accessor `conf.get(section, option, default)`: the stored value
when the key is present, the supplied default otherwise. -/
def Conf.get (c : Conf) (sect opt : String) (dflt : Val) : Val :=
  (c.store sect opt).getD dflt

/-- Python's substring test `sub in s`, on the character lists: `sub`
occurs contiguously somewhere in `s`. -/
def py_in (sub s : String) : Bool :=
  (List.range (s.data.length + 1)).any fun i =>
    sub.data.isPrefixOf (s.data.drop i)

/-- The `if "pen" not in option: option += "/pen"` adjustment of
`get_pen`. -/
def pen_option (opt : String) : String :=
  if py_in "pen" opt then opt else opt ++ "/pen"

/-- The `if "brush" not in option: option += "/brush"` adjustment of
`get_brush`. -/
def brush_option (opt : String) : String :=
  if py_in "brush" opt then opt else opt ++ "/brush"

/-- A `QColor` as used here: the constructor argument plus the alpha
channel; `QG.QColor(color)` yields an opaque color (`alphaF` is `1.0`),
`setAlphaF` replaces the alpha with the configured value. -/
structure QColor where
  spec : Val
  alphaF : Val
deriving DecidableEq

/-- The construction `QG.QColor(color)`. -/
def QColor.of (c : Val) : QColor := ⟨c, Val.rat 1⟩

/-- The setter `color.setAlphaF(alpha)`. -/
def QColor.setAlphaF (c : QColor) (a : Val) : QColor := ⟨c.spec, a⟩

/-- A `QPen`: `getattr(QC.Qt, style_name)` maps the configured style
name to the Qt enum member, so the pen records the name itself. -/
structure QPen where
  color : QColor
  width : Val
  style : Val
deriving DecidableEq

/-- A `QBrush`, wrapping its color. -/
structure QBrush where
  color : QColor
deriving DecidableEq

/-- Embedding of `get_pen(conf, section, option="", color="black",
width=1, style="SolidLine")`; the Python keyword defaults are passed
explicitly by the callers below. -/
def get_pen (conf : Conf) (sect option0 : String) (color : Val) (width : Val)
    (style : String) : QPen :=
  let opt := pen_option option0
  let colorv := conf.get sect (opt ++ "/color") color
  let qcolor := QColor.of colorv
  let widthv := conf.get sect (opt ++ "/width") width
  let style_name := conf.get sect (opt ++ "/style") (Val.str style)
  ⟨qcolor, widthv, style_name⟩

/-- Embedding of `get_brush(conf, section, option="", color="black",
alpha=1.0)`. -/
def get_brush (conf : Conf) (sect option0 : String) (color : Val)
    (alpha : Val) : QBrush :=
  let opt := brush_option option0
  let colorv := conf.get sect (opt ++ "/color") color
  let qcolor := QColor.of colorv
  let alphav := conf.get sect (opt ++ "/alphaF") alpha
  ⟨qcolor.setAlphaF alphav⟩

/-- Claim C7: when the configuration store has no matching pen keys
(`.../color`, `.../width`, `.../style`) and no matching brush keys
(`.../color`, `.../alphaF`) under the adjusted option, `get_pen` builds
the pen from its caller-supplied defaults and `get_brush` the brush from
its caller-supplied color and alpha; in particular, under the Python
keyword defaults the pen is color `"black"`, width `1`, style
`"SolidLine"` and the brush is color `"black"` with alpha `1.0`. -/
theorem get_pen_brush_defaults (conf : Conf) (sect optp optb : String)
    (c w : Val) (st : String) (cb a : Val)
    (h1 : conf.store sect (pen_option optp ++ "/color") = none)
    (h2 : conf.store sect (pen_option optp ++ "/width") = none)
    (h3 : conf.store sect (pen_option optp ++ "/style") = none)
    (h4 : conf.store sect (brush_option optb ++ "/color") = none)
    (h5 : conf.store sect (brush_option optb ++ "/alphaF") = none) :
    get_pen conf sect optp c w st = ⟨⟨c, Val.rat 1⟩, w, Val.str st⟩ ∧
    get_brush conf sect optb cb a = ⟨⟨cb, a⟩⟩ ∧
    get_pen conf sect optp (Val.str "black") (Val.int 1) "SolidLine" =
      ⟨⟨Val.str "black", Val.rat 1⟩, Val.int 1, Val.str "SolidLine"⟩ ∧
    get_brush conf sect optb (Val.str "black") (Val.rat 1) =
      ⟨⟨Val.str "black", Val.rat 1⟩⟩ := by
  refine ⟨?_, ?_, ?_, ?_⟩ <;>
    simp [get_pen, get_brush, Conf.get, QColor.of, QColor.setAlphaF,
      h1, h2, h3, h4, h5]

/-- Witness for C7: a store with no keys at all yields the literal
default pen. -/
theorem get_pen_brush_defaults_witness :
    get_pen ⟨fun _ _ => none⟩ "plot" "" (Val.str "black") (Val.int 1)
      "SolidLine" =
      ⟨⟨Val.str "black", Val.rat 1⟩, Val.int 1, Val.str "SolidLine"⟩ :=
  (get_pen_brush_defaults ⟨fun _ _ => none⟩ "plot" "" ""
    (Val.str "black") (Val.int 1) "SolidLine" (Val.str "black") (Val.rat 1)
    rfl rfl rfl rfl rfl).2.2.1

/-- The option adjustment at the top of `get_font`: `if not option:
option = "font"` then `if "font" not in option: option += "/font"`. -/
def font_option (opt : String) : String :=
  let opt := if opt == "" then "font" else opt
  if py_in "font" opt then opt else opt ++ "/font"

/-- Python `str()` of a stored value, used when a configured family entry
is not a string. -/
def Val.py_str : Val → String
  | .str s => s
  | .int n => toString n
  | .rat q => toString q
  | .bool b => if b then "True" else "False"
  | .list l => toString l

/-- The `if not isinstance(families, list): families = [families]`
normalisation of `get_font`. -/
def Val.as_families : Val → List String
  | .list l => l
  | v => [v.py_str]

/-- The `family = None; for family in families: if
font_is_installed(family): break` loop of `get_font`: the value of the
loop variable afterwards — the first installed family, else the last
element scanned, else the initial accumulator (`None`). -/
def family_loop (installed : String → Bool) :
    Option String → List String → Option String
  | acc, [] => acc
  | _, f :: rest =>
    if installed f then some f else family_loop installed (some f) rest

/-- Weight constants `QG.QFont.Normal` and `QG.QFont.Bold`. -/
inductive Weight where
  | normal : Weight
  | bold : Weight
deriving DecidableEq

/-- A `QFont` recorded through the setter calls `get_font` makes:
`family = some a` exactly when `setFamily(a)` was called (`a` being the
loop variable, possibly `None`), `pointSize = some v` exactly when
`setPointSize(v)` was called, and the weight set by the final
`setWeight`. -/
structure QFont where
  family : Option (Option String)
  pointSize : Option Val
  weight : Weight
deriving DecidableEq

/-- Embedding of `get_font(conf, section, option="")`.  `installed` is
the `font_is_installed` oracle over the toolkit's font database and
`os_name` is `os.name`.  The two-argument `conf.get` calls of the source
are guarded by `has_option`, so the default value passed to `Conf.get`
for them is never read.  The source contains no print call. -/
def get_font (installed : String → Bool) (os_name : String) (conf : Conf)
    (sect option0 : String) : QFont :=
  let opt := font_option option0
  let families : Option Val :=
    if conf.has_option sect (opt ++ "/family/nt") then
      some (conf.get sect (opt ++ "/family/" ++ os_name) (Val.str ""))
    else if conf.has_option sect (opt ++ "/family") then
      some (conf.get sect (opt ++ "/family") (Val.str ""))
    else none
  let famField : Option (Option String) :=
    match families with
    | none => none
    | some famv => some (family_loop installed none famv.as_families)
  let sizeField : Option Val :=
    if conf.has_option sect (opt ++ "/size") then
      some (conf.get sect (opt ++ "/size") (Val.str ""))
    else none
  let weightField : Weight :=
    if (conf.get sect (opt ++ "/bold") (Val.bool false)).truthy then
      Weight.bold
    else Weight.normal
  ⟨famField, sizeField, weightField⟩

/-- Claim C8: `get_font` sets the weight to normal when the `bold`
option is absent or stores a falsy value, and to bold when it stores
`True`. -/
theorem get_font_bold_weight (installed : String → Bool) (os_name : String)
    (conf : Conf) (sect option0 : String) :
    (conf.store sect (font_option option0 ++ "/bold") = none →
      (get_font installed os_name conf sect option0).weight = Weight.normal) ∧
    (∀ v, conf.store sect (font_option option0 ++ "/bold") = some v →
      v.truthy = false →
      (get_font installed os_name conf sect option0).weight = Weight.normal) ∧
    (conf.store sect (font_option option0 ++ "/bold") = some (Val.bool true) →
      (get_font installed os_name conf sect option0).weight = Weight.bold) := by
  refine ⟨fun h => ?_, fun v hv htr => ?_, fun h => ?_⟩
  · simp [get_font, Conf.get, h, Val.truthy]
  · simp [get_font, Conf.get, hv, htr]
  · simp [get_font, Conf.get, h, Val.truthy]

/-- Witness for C8: the empty store yields a normal-weight font. -/
theorem get_font_bold_weight_witness :
    (get_font (fun _ => false) "posix" ⟨fun _ _ => none⟩ "plot" "").weight =
      Weight.normal :=
  (get_font_bold_weight (fun _ => false) "posix" ⟨fun _ _ => none⟩
    "plot" "").1 rfl

/-- The warning printed by `get_family` when no candidate is installed
(`"Warning: None of the following fonts is installed: %r" % families`). -/
def warn_msg (families : List String) : String :=
  "Warning: None of the following fonts is installed: " ++ toString families

/-- Embedding of `get_family(families)`: the returned family together
with the list of printed lines.  The `for`/`else` returns the first
installed family (printing nothing); when the loop exhausts, it prints
the warning and returns the empty string.  (A non-`list` argument is
first wrapped in a singleton by the source; the model takes the list
directly.) -/
def get_family (installed : String → Bool) (families : List String) :
    String × List String :=
  match families.find? installed with
  | some family => (family, [])
  | none => ("", [warn_msg families])

/-- Claim C9: when none of the candidate families is installed,
`get_family` prints the warning and returns the empty selection instead
of raising. -/
theorem get_family_none_installed (installed : String → Bool)
    (families : List String)
    (h : ∀ f ∈ families, installed f = false) :
    get_family installed families = ("", [warn_msg families]) := by
  unfold get_family
  rw [List.find?_eq_none.mpr fun x hx => by simp [h x hx]]

/-- Witness for C9 on a one-element family list. -/
theorem get_family_none_installed_witness :
    get_family (fun _ => false) ["Arial"] = ("", [warn_msg ["Arial"]]) :=
  get_family_none_installed (fun _ => false) ["Arial"]
    (fun _f _ => rfl)

lemma get_font_family_loop (installed : String → Bool) (os_name : String)
    (conf : Conf) (sect option0 : String) (fams : List String)
    (hnt : conf.store sect (font_option option0 ++ "/family/nt") = none)
    (hfam : conf.store sect (font_option option0 ++ "/family") =
      some (Val.list fams)) :
    (get_font installed os_name conf sect option0).family =
      some (family_loop installed none fams) := by
  simp [get_font, Conf.has_option, Conf.get, hnt, hfam, Val.as_families]

lemma family_loop_last (installed : String → Bool) :
    ∀ (l : List String) (acc : Option String), l ≠ [] →
      (∀ f ∈ l, installed f = false) →
      family_loop installed acc l = l.getLast? := by
  intro l
  induction l with
  | nil => intro acc h; exact absurd rfl h
  | cons f rest ih =>
    intro acc _ hni
    simp only [family_loop, hni f (List.mem_cons_self f rest)]
    cases rest with
    | nil => simp [family_loop]
    | cons g rest2 =>
      rw [ih (some f) (by simp) fun q hq => hni q (List.mem_cons_of_mem f hq)]
      simp [List.getLast?_cons_cons]

lemma family_loop_mem (installed : String → Bool) :
    ∀ (l : List String) (acc : Option String), l ≠ [] →
      ∃ f ∈ l, family_loop installed acc l = some f := by
  intro l
  induction l with
  | nil => intro acc h; exact absurd rfl h
  | cons f rest ih =>
    intro acc _
    by_cases hf : installed f
    · exact ⟨f, List.mem_cons_self f rest, by simp [family_loop, hf]⟩
    · cases rest with
      | nil => exact ⟨f, by simp, by simp [family_loop, hf]⟩
      | cons g rest2 =>
        obtain ⟨x, hx, he⟩ := ih (some f) (by simp)
        refine ⟨x, List.mem_cons_of_mem f hx, ?_⟩
        rw [family_loop, if_neg hf]
        exact he

/-- Claim C10: with a configured non-empty families list none of whose
members is installed, `get_font` calls `setFamily` with the loop
variable left by the exhausted search — the last candidate of the list —
and never with an empty or missing family; and whenever a non-empty
families list is configured, `setFamily` receives some member of that
list.  (`get_font` contains no print call, so no warning accompanies
this: the warning belongs to `get_family`, which `get_font` does not
invoke.) -/
theorem get_font_family_exhausted (installed : String → Bool)
    (os_name : String) (conf : Conf) (sect option0 : String)
    (fams : List String)
    (hnt : conf.store sect (font_option option0 ++ "/family/nt") = none)
    (hfam : conf.store sect (font_option option0 ++ "/family") =
      some (Val.list fams))
    (hne : fams ≠ []) :
    ((∀ f ∈ fams, installed f = false) →
      (get_font installed os_name conf sect option0).family =
        some fams.getLast?) ∧
    (∃ f ∈ fams,
      (get_font installed os_name conf sect option0).family =
        some (some f)) := by
  constructor
  · intro hni
    rw [get_font_family_loop installed os_name conf sect option0 fams hnt hfam]
    rw [family_loop_last installed fams none hne hni]
  · obtain ⟨x, hx, he⟩ := family_loop_mem installed fams none hne
    exact ⟨x, hx,
      by rw [get_font_family_loop installed os_name conf sect option0 fams
          hnt hfam, he]⟩

/-- Witness configuration for C10: only the key
`("plot", "font/family")` is set, to the list `["A", "B"]`. -/
def confW : Conf :=
  ⟨fun sect opt =>
    if sect == "plot" && opt == "font/family" then some (Val.list ["A", "B"])
    else none⟩

/-- Witness for C10: with no family installed, the font family is the
last candidate `"B"`. -/
theorem get_font_family_exhausted_witness :
    (get_font (fun _ => false) "posix" confW "plot" "").family =
      some (["A", "B"].getLast?) :=
  (get_font_family_exhausted (fun _ => false) "posix" confW "plot" ""
    ["A", "B"] (by decide) (by decide) (by decide)).1 (fun _f _ => rfl)

end Guidata
